import Mathlib

/-!
# Verification of the libcache composition layer

A shallow embedding of the cache-composition layer of the `libcache`
repository: the `Replication`, `Multilayer` and `Distribution` composites
(`caches/replication.py`, `caches/multilayer.py`, `caches/distribution.py`),
the in-memory backend (`caches/memory.py`) and the shared base contract
(`cache_base.py`).

Modelling conventions:

* A child cache (backend adapter or nested composite) is an opaque state of
  type `σ` together with an operation record (`ScalarOps`, `ListOps`,
  `HashOps`, `SortedSetOps`) mirroring the Cache Operation Contract.  Each
  operation maps a child state to a result paired with the child's new state
  (Python mutates the child object in place; we pass states explicitly).
* A Python `dict` is an association list with update-in-place semantics
  (`dictSet` replaces the binding of an existing key); `dictGet` is `d.get(k)`.
* Python's `None` result is `Option.none`; a Python exception is modelled by
  `Except` with error type `PyError`.
* `timeout` arguments are `Option Int` (`none` = unspecified, `some 0` =
  never expire, `some t` = `t` seconds); wall-clock time (`time.time()`) is
  an explicit `now : Int` argument.
-/

/-- A Python runtime exception escaping an embedded method.  The only one we
need is the `TypeError`/`AttributeError` raised by subscripting
`self._client` (which the base constructor sets to `None`) in
`Multilayer.get`. -/
inductive PyError : Type
  | typeError
deriving DecidableEq, Repr

section Dict

variable {K α : Type} [DecidableEq K]

/-- `d.get(k)` on a Python dict modelled as an association list: the value
bound to `k`, or `none` when `k` is absent. -/
def dictGet (d : List (K × α)) (k : K) : Option α :=
  (d.find? fun p => p.1 = k).map Prod.snd

/-- `d[k] = v` on a Python dict: replaces any existing binding of `k`. -/
def dictSet (k : K) (v : α) (d : List (K × α)) : List (K × α) :=
  (k, v) :: d.filter fun p => p.1 ≠ k

/-- `del d[k]` on a Python dict / `d.pop(k, None)`. -/
def dictDel (k : K) (d : List (K × α)) : List (K × α) :=
  d.filter fun p => p.1 ≠ k

end Dict

section Ops

variable (σ K V : Type)

/-- The scalar part of the Cache Operation Contract, as consumed by the
composites from each child client (`cache_base.py` documents the surface;
children are external collaborators, so the operations are abstract). -/
structure ScalarOps where
  get : σ → K → Option V × σ
  set : σ → K → V → Option Int → Bool → Bool × σ
  setMany : σ → List (K × V) → Option Int → Bool → Bool × σ
  getValues : σ → List K → Option (List (K × V)) × σ
  delete : σ → K → Bool → Bool × σ
  deleteMany : σ → List K → Bool → Bool × σ
  incr : σ → K → Int → Bool → Option Int × σ

/-- The blocking list operations of the contract. -/
structure ListOps where
  blockLeftPop : σ → K → Int → Option V × σ
  blockRightPop : σ → K → Int → Option V × σ

/-- The hash-field operations of the contract used by `Multilayer.hget`. -/
structure HashOps where
  hget : σ → K → K → Option V × σ
  hset : σ → K → K → V → Option Int → Bool → Bool × σ

/-- The sorted-set range-removal operations of the contract.  Counts are
`Int` (number of removed members). -/
structure SortedSetOps where
  zremrangebyrank : σ → K → Int → Int → Bool → Int × σ
  zremrangebyscore : σ → K → Int → Int → Int × σ

end Ops

section ReplicationDefs

variable {σ K V : Type}

/-- `caches/replication.py`: a `Replication` composite holds the child
clients built from the configuration, in configuration order
(`self._clients`).  The optional designated primary only affects the read
path (`get_client`), which none of the embedded operations use. -/
structure Replication (σ : Type) where
  clients : List σ

/-- The write loop of `Replication.set` (`replication.py:27-44`):
`result = True; for client in self._clients: if not client.set(...): result
= False; return result`.  Every child is called; a failure flips the overall
result but does not stop the loop. -/
def replicationSetList (ops : ScalarOps σ K V) (key : K) (value : V)
    (timeout : Option Int) (noreply : Bool) : List σ → Bool × List σ
  | [] => (true, [])
  | c :: rest =>
    let r := ops.set c key value timeout noreply
    let t := replicationSetList ops key value timeout noreply rest
    (r.1 && t.1, r.2 :: t.2)

/-- `Replication.set` (`replication.py:27-44`). -/
def Replication.set (self : Replication σ) (ops : ScalarOps σ K V) (key : K)
    (value : V) (timeout : Option Int) (noreply : Bool) :
    Bool × Replication σ :=
  let r := replicationSetList ops key value timeout noreply self.clients
  (r.1, ⟨r.2⟩)

/-- The loop of `Replication.incr` (`replication.py:163-178`): `result =
None; for client in self._clients: result = client.incr(key, delta,
noreply); if result is None: return None; return result`.  `prev` is the
running `result` (returned when the list is exhausted). -/
def replicationIncrAux (ops : ScalarOps σ K V) (key : K) (delta : Int)
    (noreply : Bool) (prev : Option Int) : List σ → Option Int × List σ
  | [] => (prev, [])
  | c :: rest =>
    let r := ops.incr c key delta noreply
    match r.1 with
    | none => (none, r.2 :: rest)
    | some n =>
      let t := replicationIncrAux ops key delta noreply (some n) rest
      (t.1, r.2 :: t.2)

/-- `Replication.incr` (`replication.py:163-178`). -/
def Replication.incr (self : Replication σ) (ops : ScalarOps σ K V) (key : K)
    (delta : Int) (noreply : Bool) : Option Int × Replication σ :=
  let r := replicationIncrAux ops key delta noreply none self.clients
  (r.1, ⟨r.2⟩)

/-- The loop shared by `Replication.block_left_pop` and
`Replication.block_right_pop` (`replication.py:197-219`): `result = None;
for client in self._clients: result = client.block_*_pop(key, timeout);
return result` — the pop is issued to every child and the last child's
result is returned. -/
def replicationBlockPopList (pop : σ → K → Int → Option V × σ) (key : K)
    (timeout : Int) (clients : List σ) : Option V × List σ :=
  clients.foldl
    (fun acc c =>
      let r := pop c key timeout
      (r.1, acc.2 ++ [r.2]))
    ((none : Option V), ([] : List σ))

/-- `Replication.block_left_pop` (`replication.py:197-207`). -/
def Replication.blockLeftPop (self : Replication σ) (ops : ListOps σ K V)
    (key : K) (timeout : Int) : Option V × Replication σ :=
  let r := replicationBlockPopList ops.blockLeftPop key timeout self.clients
  (r.1, ⟨r.2⟩)

/-- `Replication.block_right_pop` (`replication.py:209-219`). -/
def Replication.blockRightPop (self : Replication σ) (ops : ListOps σ K V)
    (key : K) (timeout : Int) : Option V × Replication σ :=
  let r := replicationBlockPopList ops.blockRightPop key timeout self.clients
  (r.1, ⟨r.2⟩)

end ReplicationDefs

section MultilayerDefs

variable {σ K V : Type}

/-- `caches/multilayer.py`: a `Multilayer` composite keeps its layers in an
ordered list `self._clients`; `self._primary_cache = self._clients[-1]` and
`self._reversed_caches = self._clients[-2::-1]`.  We split the list as
`front ++ [primary]`, so `clients = front ++ [primary]` and the reversed
backup layers are `front.reverse`. -/
structure Multilayer (σ : Type) where
  front : List σ
  primary : σ

/-- `self._clients` of a `Multilayer`. -/
def Multilayer.clients (self : Multilayer σ) : List σ :=
  self.front ++ [self.primary]

/-- The read loop of `Multilayer.get` (`multilayer.py:73-86`), scanning
`self._clients` from index 0 upward (`i` is the current index):

```
value = self._clients[i].get(key)
if value is not None:
    for j in range(i-1, -1, -1):
        self._client[j].set(key, value)
    return value
```

The promotion statement subscripts `self._client` — the attribute the base
constructor (`cache.py:13`) sets to `None` — not the layer list
`self._clients`.  For a hit at index 0 the inner `range(-1, -1, -1)` is
empty and the value is returned; for a hit at any index `i ≥ 1` the first
inner iteration raises (`TypeError`: `None` is not subscriptable), so no
promotion happens and no value is returned.  The second component is the
final state of `self._clients` in order. -/
def multilayerGetAux (ops : ScalarOps σ K V) (key : K) :
    Nat → List σ → Except PyError (Option V) × List σ
  | _, [] => (.ok none, [])
  | i, c :: rest =>
    let r := ops.get c key
    match r.1 with
    | some v =>
      match i with
      | 0 => (.ok (some v), r.2 :: rest)
      | _ + 1 => (.error .typeError, r.2 :: rest)
    | none =>
      let t := multilayerGetAux ops key (i + 1) rest
      (t.1, r.2 :: t.2)

/-- `Multilayer.get` (`multilayer.py:73-86`). -/
def Multilayer.get (self : Multilayer σ) (ops : ScalarOps σ K V) (key : K) :
    Except PyError (Option V) × List σ :=
  multilayerGetAux ops key 0 self.clients

/-- The promotion loop of `Multilayer.hget` (`multilayer.py:361-362`):
`for j in range(i-1, -1, -1): self._clients[j].hset(key, field, value)`.
Called with the hit index `i` as the counter, it field-sets layers
`i-1, i-2, …, 0` (here `hset` is correctly spelled `self._clients`). -/
def multilayerHsetPromote (ops : HashOps σ K V) (key field : K) (v : V) :
    Nat → List σ → List σ
  | 0, cs => cs
  | j + 1, cs =>
    let cs' :=
      match cs[j]? with
      | some c => cs.set j (ops.hset c key field v none false).2
      | none => cs
    multilayerHsetPromote ops key field v j cs'

/-- The loop of `Multilayer.hget` (`multilayer.py:351-362`):

```
for i in range(0, len(self._clients)):
    value = self._clients[i].hget(key, field)
    if value is not None:
        for j in range(i-1, -1, -1):
            self._clients[j].hset(key, field, value)
```

There is no `return` statement anywhere in the body, so the outer loop runs
over every layer (promoting at each hit) and the method always falls
through, returning `None`.  `fuel` counts the remaining iterations
(`len(self._clients) - i`). -/
def multilayerHgetAux (ops : HashOps σ K V) (key field : K) :
    Nat → Nat → List σ → List σ
  | _, 0, cs => cs
  | i, fuel + 1, cs =>
    match cs[i]? with
    | none => cs
    | some c =>
      let r := ops.hget c key field
      let cs' := cs.set i r.2
      match r.1 with
      | some v =>
        multilayerHgetAux ops key field (i + 1) fuel
          (multilayerHsetPromote ops key field v i cs')
      | none => multilayerHgetAux ops key field (i + 1) fuel cs'

/-- `Multilayer.hget` (`multilayer.py:351-362`); the second component is
the final state of `self._clients` in order. -/
def Multilayer.hget (self : Multilayer σ) (ops : HashOps σ K V)
    (key field : K) : Option V × List σ :=
  let cs := self.clients
  (none, multilayerHgetAux ops key field 0 cs.length cs)

/-- `Multilayer.block_left_pop` (`multilayer.py:182-189`): delegate to
`self._primary_cache` only. -/
def Multilayer.blockLeftPop (self : Multilayer σ) (ops : ListOps σ K V)
    (key : K) (timeout : Int) : Option V × Multilayer σ :=
  let r := ops.blockLeftPop self.primary key timeout
  (r.1, ⟨self.front, r.2⟩)

/-- `Multilayer.block_right_pop` (`multilayer.py:191-198`): delegate to
`self._primary_cache` only. -/
def Multilayer.blockRightPop (self : Multilayer σ) (ops : ListOps σ K V)
    (key : K) (timeout : Int) : Option V × Multilayer σ :=
  let r := ops.blockRightPop self.primary key timeout
  (r.1, ⟨self.front, r.2⟩)

end MultilayerDefs

section DistributionDefs

variable {σ K V : Type} [DecidableEq K]

/-- `caches/distribution.py`: a `Distribution` composite for the
`mod`/`div`/`hash_mod`/`hash_div` family holds `self._client`, a dict from
integer bucket id to child client (`distribution.py:67`), and the
strategy-bound routing function chosen at construction
(`distribution.py:68-73`).  `route` is the id computation of the bound
`_get_client_by_key_*` method (`none` models the `try/except` returning
`None` when the regex does not match or the captured group is unusable);
the trailing `self._client.get(client_id)` dictionary lookup is
`getClientByKey` below. -/
structure Distribution (K σ : Type) where
  client : List (Nat × σ)
  route : K → Option Nat

/-- `self.get_client_by_key(key)` (`distribution.py:75-80` for `mod`):
compute the bucket id, then `self._client.get(client_id)`.  The result
pairs the id with the child so that callers can write the child's new state
back into the table. -/
def Distribution.getClientByKey (self : Distribution K σ) (key : K) :
    Option (Nat × σ) :=
  match self.route key with
  | none => none
  | some i => (dictGet self.client i).map fun c => (i, c)

/-- `re.match(r"user:(\d+):.*", key).group(1)` as an `Option`-valued
matcher, specialised to the spec's end-to-end example regex: the literal
prefix `user:`, then one-or-more digits captured as group 1, then `:`
(the trailing `.*` matches any remainder).  Returns `int(group(1))`. -/
def extractUserNum (key : String) : Option Nat :=
  let cs := key.toList
  if cs.take 5 = ['u', 's', 'e', 'r', ':'] then
    let rest := cs.drop 5
    let digits := rest.takeWhile Char.isDigit
    match digits, rest.drop digits.length with
    | [], _ => none
    | _ :: _, ':' :: _ =>
      some (digits.foldl (fun n c => 10 * n + (c.toNat - 48)) 0)
    | _ :: _, _ => none
  else none

/-- `Distribution._get_client_by_key_mod` (`distribution.py:75-80`) for the
`user:(\d+):.*` regex: `client_id = int(regex.match(key).group(1)) %
factor`, with any exception in the `try` block (e.g. no match) yielding no
route. -/
def getClientIdByKeyModUser (factor : Nat) (key : String) : Option Nat :=
  (extractUserNum key).map fun n => n % factor

/-- `Distribution.get` (`distribution.py:153-164`): resolve the owning
child; if none, return `None`; else delegate. -/
def Distribution.get (self : Distribution K σ) (ops : ScalarOps σ K V)
    (key : K) : Option V × Distribution K σ :=
  match self.getClientByKey key with
  | none => (none, self)
  | some (i, c) =>
    let r := ops.get c key
    (r.1, { self with client := dictSet i r.2 self.client })

/-- `Distribution.set` (`distribution.py:97-113`): resolve the owning
child; if none, return `False`; else delegate. -/
def Distribution.set (self : Distribution K σ) (ops : ScalarOps σ K V)
    (key : K) (value : V) (timeout : Option Int) (noreply : Bool) :
    Bool × Distribution K σ :=
  match self.getClientByKey key with
  | none => (false, self)
  | some (i, c) =>
    let r := ops.set c key value timeout noreply
    (r.1, { self with client := dictSet i r.2 self.client })

/-- `Distribution.incr` (`distribution.py:234-247`): resolve the owning
child; if none, return `None`; else delegate. -/
def Distribution.incr (self : Distribution K σ) (ops : ScalarOps σ K V)
    (key : K) (delta : Int) (noreply : Bool) :
    Option Int × Distribution K σ :=
  match self.getClientByKey key with
  | none => (none, self)
  | some (i, c) =>
    let r := ops.incr c key delta noreply
    (r.1, { self with client := dictSet i r.2 self.client })

/-- `Distribution.block_left_pop` (`distribution.py:264-274`): delegate to
the routed child only. -/
def Distribution.blockLeftPop (self : Distribution K σ) (ops : ListOps σ K V)
    (key : K) (timeout : Int) : Option V × Distribution K σ :=
  match self.getClientByKey key with
  | none => (none, self)
  | some (i, c) =>
    let r := ops.blockLeftPop c key timeout
    (r.1, { self with client := dictSet i r.2 self.client })

/-- `Distribution.block_right_pop` (`distribution.py:276-286`): delegate to
the routed child only. -/
def Distribution.blockRightPop (self : Distribution K σ) (ops : ListOps σ K V)
    (key : K) (timeout : Int) : Option V × Distribution K σ :=
  match self.getClientByKey key with
  | none => (none, self)
  | some (i, c) =>
    let r := ops.blockRightPop c key timeout
    (r.1, { self with client := dictSet i r.2 self.client })

/-- `Distribution.zremrangebyscore` (`distribution.py:686-698`).  The
source resolves the owning child and then calls
`client.zremrangebyrank(key, min, max)` — the remove-by-RANK operation —
instead of `client.zremrangebyscore`. -/
def Distribution.zremrangebyscore (self : Distribution K σ)
    (ops : SortedSetOps σ K) (key : K) (mn mx : Int) :
    Option Int × Distribution K σ :=
  match self.getClientByKey key with
  | none => (none, self)
  | some (i, c) =>
    let r := ops.zremrangebyrank c key mn mx false
    (some r.1, { self with client := dictSet i r.2 self.client })

/-- `query_table[client][key] = value` on a `defaultdict(dict)` keyed by
the owning child (`distribution.py:142-147`): groups keep first-occurrence
order, and within a group a repeated key overwrites. -/
def groupDictSet (i : Nat) (k : K) (v : V) :
    List (Nat × List (K × V)) → List (Nat × List (K × V))
  | [] => [(i, [(k, v)])]
  | (j, g) :: rest =>
    if j = i then (j, dictSet k v g) :: rest
    else (j, g) :: groupDictSet i k v rest

/-- `query_table[client].append(key)` on a `defaultdict(list)`
(`distribution.py:174-179`, `211-216`). -/
def groupAppend (i : Nat) (k : K) :
    List (Nat × List K) → List (Nat × List K)
  | [] => [(i, [k])]
  | (j, g) :: rest =>
    if j = i then (j, g ++ [k]) :: rest
    else (j, g) :: groupAppend i k rest

/-- The routing phase of `Distribution.set_many` (`distribution.py:142-147`):
route every pair, returning `None` (→ overall `False`) as soon as any key
has no owning child; no child is contacted during this phase. -/
def distBuildSetTable (self : Distribution K σ) (kvs : List (K × V)) :
    Option (List (Nat × List (K × V))) :=
  kvs.foldlM
    (fun acc kv =>
      match self.getClientByKey kv.1 with
      | none => none
      | some (i, _) => some (groupDictSet i kv.1 kv.2 acc))
    []

/-- The routing phase of `Distribution.get_values` and
`Distribution.delete_many` (`distribution.py:174-179`, `211-216`). -/
def distBuildKeyTable (self : Distribution K σ) (ks : List K) :
    Option (List (Nat × List K)) :=
  ks.foldlM
    (fun acc k =>
      match self.getClientByKey k with
      | none => none
      | some (i, _) => some (groupAppend i k acc))
    []

/-- The delegation phase of `Distribution.set_many`
(`distribution.py:148-151`): one `set_many` per grouped child, returning
`False` at the first failing child.  The `dictGet tbl i = none` branch is
unreachable: the groups were keyed by children found in the table. -/
def distRunSetMany (ops : ScalarOps σ K V) (timeout : Option Int)
    (noreply : Bool) :
    List (Nat × List (K × V)) → List (Nat × σ) → Bool × List (Nat × σ)
  | [], tbl => (true, tbl)
  | (i, g) :: rest, tbl =>
    match dictGet tbl i with
    | none => (false, tbl)
    | some c =>
      let r := ops.setMany c g timeout noreply
      if r.1 then distRunSetMany ops timeout noreply rest (dictSet i r.2 tbl)
      else (false, dictSet i r.2 tbl)

/-- `Distribution.set_many` (`distribution.py:132-151`); the keyword-pair
dict `**kw` is the list `kvs`. -/
def Distribution.setMany (self : Distribution K σ) (ops : ScalarOps σ K V)
    (kvs : List (K × V)) (timeout : Option Int) (noreply : Bool) :
    Bool × Distribution K σ :=
  match distBuildSetTable self kvs with
  | none => (false, self)
  | some q =>
    let r := distRunSetMany ops timeout noreply q self.client
    (r.1, { self with client := r.2 })

/-- The delegation phase of `Distribution.get_values`
(`distribution.py:180-186`): one `get_values` per grouped child; a `None`
child result aborts with `None`, otherwise `values.update(result)` merges
the child's key-to-value mapping (the child call is abstracted to return
that mapping, which is the shape the merge loop consumes). -/
def distRunGetValues (ops : ScalarOps σ K V) :
    List (Nat × List K) → List (Nat × σ) → List (K × V) →
      Option (List (K × V)) × List (Nat × σ)
  | [], tbl, vals => (some vals, tbl)
  | (i, g) :: rest, tbl, vals =>
    match dictGet tbl i with
    | none => (none, tbl)
    | some c =>
      let r := ops.getValues c g
      match r.1 with
      | none => (none, dictSet i r.2 tbl)
      | some res =>
        distRunGetValues ops rest (dictSet i r.2 tbl)
          (res.foldl (fun d kv => dictSet kv.1 kv.2 d) vals)

/-- `Distribution.get_values` (`distribution.py:166-186`). -/
def Distribution.getValues (self : Distribution K σ) (ops : ScalarOps σ K V)
    (ks : List K) : Option (List (K × V)) × Distribution K σ :=
  match distBuildKeyTable self ks with
  | none => (none, self)
  | some q =>
    let r := distRunGetValues ops q self.client []
    (r.1, { self with client := r.2 })

/-- The delegation phase of `Distribution.delete_many`
(`distribution.py:217-220`). -/
def distRunDeleteMany (ops : ScalarOps σ K V) (noreply : Bool) :
    List (Nat × List K) → List (Nat × σ) → Bool × List (Nat × σ)
  | [], tbl => (true, tbl)
  | (i, g) :: rest, tbl =>
    match dictGet tbl i with
    | none => (false, tbl)
    | some c =>
      let r := ops.deleteMany c g noreply
      if r.1 then distRunDeleteMany ops noreply rest (dictSet i r.2 tbl)
      else (false, dictSet i r.2 tbl)

/-- `Distribution.delete_many` (`distribution.py:203-220`). -/
def Distribution.deleteMany (self : Distribution K σ) (ops : ScalarOps σ K V)
    (ks : List K) (noreply : Bool) : Bool × Distribution K σ :=
  match distBuildKeyTable self ks with
  | none => (false, self)
  | some q =>
    let r := distRunDeleteMany ops noreply q self.client
    (r.1, { self with client := r.2 })

end DistributionDefs

section MemoryDefs

variable {K V : Type} [DecidableEq K]

/-- `_Value = namedtuple('_Value', ['timeout', 'value'])`
(`memory.py:11`): the stored pair of absolute expiration instant (`none` =
never expire) and value. -/
structure MemValue (V : Type) where
  timeout : Option Int
  value : V
deriving DecidableEq, Repr

/-- `caches/memory.py`: the in-memory backend.  `store` is `self._store`;
`timeout` is the backend default from `CacheBase.__init__`
(`cache.py:12-14`); `trimInterval`/`lastTrimTime` are
`self._trim_interval`/`self._last_trim_time`.  `time.time()` is passed
explicitly as `now`. -/
structure Memory (K V : Type) where
  store : List (K × MemValue V)
  timeout : Int
  trimInterval : Int
  lastTrimTime : Int

/-- `Memory._normalize_timeout` (`memory.py:188-195`): unspecified →
`now + self.timeout`; `0` → never expire; otherwise `now + timeout`. -/
def Memory.normalizeTimeout (self : Memory K V) (now : Int) :
    Option Int → Option Int
  | none => some (now + self.timeout)
  | some t => if t = 0 then none else some (now + t)

/-- `value.timeout is not None and value.timeout < now`
(`memory.py:44`, `182`). -/
def memExpired (now : Int) (mv : MemValue V) : Bool :=
  match mv.timeout with
  | none => false
  | some e => decide (e < now)

/-- `Memory._trim` (`memory.py:176-186`): once per trim interval, drop all
expired entries. -/
def Memory.trim (self : Memory K V) (now : Int) : Memory K V :=
  if self.lastTrimTime + self.trimInterval < now then
    { self with
        store := self.store.filter fun p => !memExpired now p.2,
        lastTrimTime := now }
  else self

/-- `Memory.set` (`memory.py:49-65`): trim, then
`self._store[key] = _Value(self._normalize_timeout(timeout), value)` and
return `True`. -/
def Memory.set (self : Memory K V) (now : Int) (key : K) (value : V)
    (timeout : Option Int) (noreply : Bool) : Bool × Memory K V :=
  let s := self.trim now
  let _ := noreply
  (true,
    { s with store := dictSet key ⟨s.normalizeTimeout now timeout, value⟩ s.store })

/-- `Memory.get` (`memory.py:32-47`): a missing key returns `None`; an
entry whose expiration instant has passed is deleted and `None` is
returned; otherwise the value is returned. -/
def Memory.get (self : Memory K V) (now : Int) (key : K) :
    Option V × Memory K V :=
  match dictGet self.store key with
  | none => (none, self)
  | some mv =>
    match mv.timeout with
    | some e =>
      if e < now then (none, { self with store := dictDel key self.store })
      else (some mv.value, self)
    | none => (some mv.value, self)

end MemoryDefs

section CacheBaseDefs

variable {K V : Type} [DecidableEq K]

/-- Python `dict(pairs)`: build a dict from a pair list, later pairs
overriding earlier bindings of the same key. -/
def pyDict (pairs : List (K × V)) : List (K × V) :=
  pairs.foldl (fun d kv => dictSet kv.1 kv.2 d) []

/-- `CacheBase.get_key_to_value` (`cache_base.py:53-63`):
`dict([(k, self.get(k)) for k in keys])` for a cache whose `get` is the
function `get`; a Python value of `None` is `Option.none`, so the dict's
values live in `Option V`. -/
def CacheBase.getKeyToValue (get : K → Option V) (keys : List K) :
    List (K × Option V) :=
  pyDict (keys.map fun k => (k, get k))

/-- `CacheBase.get_values` (`cache_base.py:42-51`): `key_to_value =
self.get_key_to_value(*keys); return [key_to_value.get(k) for k in keys]`.
`gktv` is the cache's (possibly overridden) `get_key_to_value`;
`d.get(k)` of an absent key is `None` (= `none` after flattening). -/
def CacheBase.getValues (gktv : List K → List (K × Option V))
    (keys : List K) : List (Option V) :=
  let keyToValue := gktv keys
  keys.map fun k => (dictGet keyToValue k).getD none

end CacheBaseDefs

section ConcreteModels

/-- A concrete scalar backend for witnesses: an association-list store of
`Int` values plus a health flag `ok`; mutations fail (returning the
contract's failure value, applying nothing) when `ok` is false. -/
structure MChild where
  ok : Bool
  store : List (String × Int)
deriving DecidableEq, Repr

/-- The scalar contract of the `MChild` test backend. -/
def mOps : ScalarOps MChild String Int where
  get c k := (dictGet c.store k, c)
  set c k v _ _ :=
    if c.ok then (true, ⟨c.ok, dictSet k v c.store⟩) else (false, c)
  setMany c kvs _ _ :=
    if c.ok then (true, ⟨c.ok, kvs.foldl (fun s kv => dictSet kv.1 kv.2 s) c.store⟩)
    else (false, c)
  getValues c ks :=
    if c.ok then
      (some (ks.filterMap fun k => (dictGet c.store k).map fun v => (k, v)), c)
    else (none, c)
  delete c k _ :=
    if c.ok then (true, ⟨c.ok, dictDel k c.store⟩) else (false, c)
  deleteMany c ks _ :=
    if c.ok then (true, ⟨c.ok, ks.foldl (fun s k => dictDel k s) c.store⟩)
    else (false, c)
  incr c k d _ :=
    if c.ok then
      let nv := (dictGet c.store k).getD 0 + d
      (some nv, ⟨c.ok, dictSet k nv c.store⟩)
    else (none, c)

/-- A concrete list backend for witnesses: each key holds a list of `Int`;
blocking pops take from the stored list immediately and return `none` when
it is empty (a timeout). -/
def lOps : ListOps (List (String × List Int)) String Int where
  blockLeftPop c k _ :=
    match dictGet c k with
    | some (v :: vs) => (some v, dictSet k vs c)
    | _ => (none, c)
  blockRightPop c k _ :=
    match dictGet c k with
    | some l =>
      match l.getLast? with
      | some v => (some v, dictSet k l.dropLast c)
      | none => (none, c)
    | none => (none, c)

/-- A concrete hash backend for witnesses: each key holds a field → value
dict. -/
def hOps : HashOps (List (String × List (String × Int))) String Int where
  hget c k f := ((dictGet c k).bind fun h => dictGet h f, c)
  hset c k f v _ _ :=
    (true, dictSet k (dictSet f v ((dictGet c k).getD [])) c)

/-- Whether rank `idx` falls in the redis-style rank range
`[start, stop]` for a sorted set of `n` members (negative indices count
from the end). -/
def zRankInRange (n : Nat) (start stop : Int) (idx : Nat) : Bool :=
  let s := if start < 0 then start + n else start
  let e := if stop < 0 then stop + n else stop
  decide (s ≤ (idx : Int)) && decide ((idx : Int) ≤ e)

/-- A concrete sorted-set backend for witnesses: each key holds a member →
score list kept in ascending score order, so rank = list index.
`zremrangebyrank` removes by index range, `zremrangebyscore` by score
range; both return the number of removed members. -/
def zOps : SortedSetOps (List (String × List (String × Int))) String where
  zremrangebyrank c k start stop _ :=
    let zs := (dictGet c k).getD []
    let n := zs.length
    let removed := zs.enum.filter fun p => zRankInRange n start stop p.1
    let keep := (zs.enum.filter fun p => !zRankInRange n start stop p.1).map Prod.snd
    ((removed.length : Int), dictSet k keep c)
  zremrangebyscore c k mn mx :=
    let zs := (dictGet c k).getD []
    let removed := zs.filter fun p => decide (mn ≤ p.2) && decide (p.2 ≤ mx)
    let keep := zs.filter fun p => !(decide (mn ≤ p.2) && decide (p.2 ≤ mx))
    ((removed.length : Int), dictSet k keep c)

/-- The spec's end-to-end `mod` configuration: `method=mod`,
`key_regex=r"user:(\d+):.*"`, `factor=4`, children `{0,1,2,3}` (empty,
healthy `MChild` backends). -/
def distUser4 : Distribution String MChild :=
  ⟨[(0, ⟨true, []⟩), (1, ⟨true, []⟩), (2, ⟨true, []⟩), (3, ⟨true, []⟩)],
   getClientIdByKeyModUser 4⟩

/-- A one-child sorted-set store for the `zremrangebyscore` input:
`"s" ↦ {a:0, b:5, c:10}`. -/
def zChild : List (String × List (String × Int)) :=
  [("s", [("a", 0), ("b", 5), ("c", 10)])]

/-- A Distribution whose single child `0` owns every key, holding
`zChild`. -/
def distZ : Distribution String (List (String × List (String × Int))) :=
  ⟨[(0, zChild)], fun _ => some 0⟩

/-- A Distribution of one list-backend child `0` owning every key, with
`"q" ↦ [1]`. -/
def distL : Distribution String (List (String × List Int)) :=
  ⟨[(0, [("q", [1])])], fun _ => some 0⟩

/-- An empty in-memory backend with default timeout 60 for witnesses. -/
def mem0 : Memory String Nat :=
  ⟨[], 60, 60, 0⟩

end ConcreteModels

section DictLemmas

variable {K α : Type} [DecidableEq K]

theorem dictGet_dictSet_self (k : K) (v : α) (d : List (K × α)) :
    dictGet (dictSet k v d) k = some v := by
  simp [dictGet, dictSet]

theorem find_key_filter_ne (k j : K) (h : j ≠ k) (d : List (K × α)) :
    (d.filter fun p => p.1 ≠ k).find? (fun p => p.1 = j)
      = d.find? (fun p => p.1 = j) := by
  induction d with
  | nil => rfl
  | cons p rest ih =>
    by_cases hp : p.1 = k
    · have hj : ¬(p.1 = j) := fun hpj => h (by rw [← hpj, hp])
      rw [List.filter_cons_of_neg (by simpa using hp),
        List.find?_cons_of_neg _ (by simpa using hj), ih]
    · rw [List.filter_cons_of_pos (by simpa using hp)]
      by_cases hj : p.1 = j
      · rw [List.find?_cons_of_pos _ (by simpa using hj),
          List.find?_cons_of_pos _ (by simpa using hj)]
      · rw [List.find?_cons_of_neg _ (by simpa using hj),
          List.find?_cons_of_neg _ (by simpa using hj), ih]

theorem dictGet_dictSet_ne (k j : K) (v : α) (d : List (K × α)) (h : j ≠ k) :
    dictGet (dictSet k v d) j = dictGet d j := by
  have hk : ¬((k, v).1 = j) := fun hkj => h (hkj ▸ rfl)
  simp only [dictGet, dictSet]
  rw [List.find?_cons_of_neg _ (by simpa using hk), find_key_filter_ne k j h]

end DictLemmas

section ReplicationLemmas

variable {σ K V : Type}

theorem replicationSetList_eq (ops : ScalarOps σ K V) (key : K) (value : V)
    (timeout : Option Int) (noreply : Bool) (clients : List σ) :
    replicationSetList ops key value timeout noreply clients
      = (clients.all fun c => (ops.set c key value timeout noreply).1,
         clients.map fun c => (ops.set c key value timeout noreply).2) := by
  induction clients with
  | nil => rfl
  | cons c rest ih => simp [replicationSetList, ih, List.all_cons]

theorem replicationIncrAux_all_isSome (ops : ScalarOps σ K V) (key : K)
    (delta : Int) (noreply : Bool) (clients : List σ) :
    ∀ prev : Option Int,
      (∀ c ∈ clients, ((ops.incr c key delta noreply).1).isSome = true) →
      replicationIncrAux ops key delta noreply prev clients
        = ((match clients.getLast? with
            | none => prev
            | some c => (ops.incr c key delta noreply).1),
           clients.map fun c => (ops.incr c key delta noreply).2) := by
  induction clients with
  | nil => intro prev _; rfl
  | cons c rest ih =>
    intro prev h
    have hc : ((ops.incr c key delta noreply).1).isSome = true :=
      h c (List.mem_cons_self c rest)
    obtain ⟨n, hn⟩ := Option.isSome_iff_exists.mp hc
    have hrest : ∀ c' ∈ rest, ((ops.incr c' key delta noreply).1).isSome = true :=
      fun c' hc' => h c' (List.mem_cons_of_mem c hc')
    simp only [replicationIncrAux, hn]
    rw [ih (some n) hrest]
    cases rest with
    | nil => simp [← hn]
    | cons d ds =>
      cases hx : (d :: ds).getLast? with
      | none => exact absurd (List.getLast?_eq_none_iff.mp hx) (by simp)
      | some x => simp [List.getLast?_cons_cons, hx]

theorem replicationIncrAux_fail (ops : ScalarOps σ K V) (key : K)
    (delta : Int) (noreply : Bool) (pre : List σ) (c : σ) (post : List σ) :
    ∀ prev : Option Int,
      (∀ c' ∈ pre, ((ops.incr c' key delta noreply).1).isSome = true) →
      (ops.incr c key delta noreply).1 = none →
      replicationIncrAux ops key delta noreply prev (pre ++ c :: post)
        = (none,
           (pre.map fun c' => (ops.incr c' key delta noreply).2)
             ++ (ops.incr c key delta noreply).2 :: post) := by
  induction pre with
  | nil =>
    intro prev _ hfail
    simp [replicationIncrAux, hfail]
  | cons p ps ih =>
    intro prev h hfail
    have hp : ((ops.incr p key delta noreply).1).isSome = true :=
      h p (List.mem_cons_self p ps)
    obtain ⟨n, hn⟩ := Option.isSome_iff_exists.mp hp
    have hrest : ∀ c' ∈ ps, ((ops.incr c' key delta noreply).1).isSome = true :=
      fun c' hc' => h c' (List.mem_cons_of_mem p hc')
    have step : replicationIncrAux ops key delta noreply prev ((p :: ps) ++ c :: post)
        = ((replicationIncrAux ops key delta noreply (some n) (ps ++ c :: post)).1,
           (ops.incr p key delta noreply).2
             :: (replicationIncrAux ops key delta noreply (some n) (ps ++ c :: post)).2) := by
      rw [List.cons_append]
      simp only [replicationIncrAux, hn]
    rw [step, ih (some n) hrest hfail]
    simp

end ReplicationLemmas

/-- C2: a `Replication.set` is issued to every child in configuration
order; the composite succeeds iff every child reports success, a failing
child neither stops the fan-out nor rolls back the writes applied to the
other children (each child's final state is exactly its own `set` result).
The second conjunct is the spec's scenario: of three children exactly the
middle one fails, the composite returns failure, and the other two children
observably hold the new value. -/
theorem replication_set_fanout_no_rollback :
    (∀ (σ K V : Type) (ops : ScalarOps σ K V) (self : Replication σ)
        (key : K) (value : V) (timeout : Option Int) (noreply : Bool),
      Replication.set self ops key value timeout noreply
        = (self.clients.all fun c => (ops.set c key value timeout noreply).1,
           ⟨self.clients.map fun c => (ops.set c key value timeout noreply).2⟩)) ∧
    Replication.set ⟨[⟨true, []⟩, ⟨false, []⟩, ⟨true, []⟩]⟩ mOps "k" 7 none false
      = (false, ⟨[⟨true, [("k", 7)]⟩, ⟨false, []⟩, ⟨true, [("k", 7)]⟩]⟩) := by
  constructor
  · intro σ K V ops self key value timeout noreply
    simp [Replication.set, replicationSetList_eq]
  · rfl

/-- C5: `Replication.incr` applies the increment to the children in
configuration order; when every child reports a value the last child's
result is the composite's result (first conjunct), and a `None`
(backend-error) result from any child — not just the last — returns `None`
immediately, leaving the mutation unapplied on every remaining child
(second conjunct: the `post` children keep their original states). -/
theorem replication_incr_last_result_shortcircuit {σ K V : Type}
    (ops : ScalarOps σ K V) (key : K) (delta : Int) (noreply : Bool) :
    (∀ self : Replication σ,
      (∀ c ∈ self.clients, ((ops.incr c key delta noreply).1).isSome = true) →
      Replication.incr self ops key delta noreply
        = ((match self.clients.getLast? with
            | none => none
            | some c => (ops.incr c key delta noreply).1),
           ⟨self.clients.map fun c => (ops.incr c key delta noreply).2⟩)) ∧
    (∀ (pre : List σ) (c : σ) (post : List σ),
      (∀ c' ∈ pre, ((ops.incr c' key delta noreply).1).isSome = true) →
      (ops.incr c key delta noreply).1 = none →
      Replication.incr ⟨pre ++ c :: post⟩ ops key delta noreply
        = (none,
           ⟨(pre.map fun c' => (ops.incr c' key delta noreply).2)
              ++ (ops.incr c key delta noreply).2 :: post⟩)) := by
  constructor
  · intro self h
    simp only [Replication.incr]
    rw [replicationIncrAux_all_isSome ops key delta noreply self.clients none h]
  · intro pre c post hpre hfail
    simp only [Replication.incr]
    rw [replicationIncrAux_fail ops key delta noreply pre c post none hpre hfail]

/-- Witness for C5: two healthy children (`k = 1` and `k = 5`) return the
last child's new value `6`; with a failing middle child the composite
returns `None`, the first child's increment is applied, and the trailing
child is untouched. -/
theorem replication_incr_witness :
    (Replication.incr ⟨[(⟨true, [("k", 1)]⟩ : MChild), ⟨true, [("k", 5)]⟩]⟩ mOps "k" 1 false
       = (some 6, ⟨[⟨true, [("k", 2)]⟩, ⟨true, [("k", 6)]⟩]⟩)) ∧
    (Replication.incr ⟨[(⟨true, []⟩ : MChild), ⟨false, []⟩, ⟨true, []⟩]⟩ mOps "k" 1 false
       = (none, ⟨[⟨true, [("k", 1)]⟩, ⟨false, []⟩, ⟨true, []⟩]⟩)) :=
  ⟨((replication_incr_last_result_shortcircuit mOps "k" 1 false).1
      ⟨[⟨true, [("k", 1)]⟩, ⟨true, [("k", 5)]⟩]⟩ (by decide)).trans rfl,
   ((replication_incr_last_result_shortcircuit mOps "k" 1 false).2
      [⟨true, []⟩] ⟨false, []⟩ [⟨true, []⟩] (by decide) (by decide)).trans rfl⟩

theorem replicationBlockPopList_eq {σ K V : Type}
    (pop : σ → K → Int → Option V × σ) (key : K) (timeout : Int)
    (clients : List σ) :
    replicationBlockPopList pop key timeout clients
      = ((match clients.getLast? with
          | none => none
          | some c => (pop c key timeout).1),
         clients.map fun c => (pop c key timeout).2) := by
  suffices h : ∀ init : Option V × List σ,
      clients.foldl (fun acc c => let r := pop c key timeout; (r.1, acc.2 ++ [r.2])) init
        = ((match clients.getLast? with
            | none => init.1
            | some c => (pop c key timeout).1),
           init.2 ++ clients.map fun c => (pop c key timeout).2) by
    simpa [replicationBlockPopList] using h (none, [])
  induction clients with
  | nil => intro init; simp
  | cons c rest ih =>
    intro init
    rw [List.foldl_cons, ih]
    cases rest with
    | nil => simp
    | cons d ds =>
      cases hx : (d :: ds).getLast? with
      | none => exact absurd (List.getLast?_eq_none_iff.mp hx) (by simp)
      | some x => simp [List.getLast?_cons_cons, hx]

/-- C6 counterexample: a two-child `Replication` where child 0 holds
`"q" ↦ [1]` and child 1 holds `"q" ↦ [2]`.  `block_left_pop` is issued to
BOTH children — child 0's list is popped as well, and the last child's
value is returned — refuting "a Replication composite does not issue the
blocking pop to more than one child". -/
theorem replication_blockpop_not_single_child :
    Replication.blockLeftPop ⟨[[("q", [1])], [("q", [2])]]⟩ lOps "q" 0
      = (some 2, ⟨[[("q", ([] : List Int))], [("q", ([] : List Int))]]⟩) := rfl

/-- C6 (amended): blocking pops forward the caller's timeout to the child
unchanged (0 meaning block indefinitely at the backend); `Multilayer`
delegates to the primary layer only and `Distribution` to the routed child
only, but `Replication` issues the blocking pop to every child in
configuration order and returns the last child's result. -/
theorem blockpop_delegation :
    (∀ (σ K V : Type) (ops : ListOps σ K V) (self : Multilayer σ)
        (key : K) (timeout : Int),
      Multilayer.blockLeftPop self ops key timeout
        = ((ops.blockLeftPop self.primary key timeout).1,
           ⟨self.front, (ops.blockLeftPop self.primary key timeout).2⟩) ∧
      Multilayer.blockRightPop self ops key timeout
        = ((ops.blockRightPop self.primary key timeout).1,
           ⟨self.front, (ops.blockRightPop self.primary key timeout).2⟩)) ∧
    (∀ (σ K V : Type) [DecidableEq K] (ops : ListOps σ K V)
        (self : Distribution K σ) (key : K) (timeout : Int) (i : Nat) (c : σ),
      self.getClientByKey key = some (i, c) →
      Distribution.blockLeftPop self ops key timeout
        = ((ops.blockLeftPop c key timeout).1,
           { self with
               client := dictSet i (ops.blockLeftPop c key timeout).2 self.client }) ∧
      Distribution.blockRightPop self ops key timeout
        = ((ops.blockRightPop c key timeout).1,
           { self with
               client := dictSet i (ops.blockRightPop c key timeout).2 self.client })) ∧
    (∀ (σ K V : Type) (ops : ListOps σ K V) (self : Replication σ)
        (key : K) (timeout : Int),
      Replication.blockLeftPop self ops key timeout
        = ((match self.clients.getLast? with
            | none => none
            | some c => (ops.blockLeftPop c key timeout).1),
           ⟨self.clients.map fun c => (ops.blockLeftPop c key timeout).2⟩) ∧
      Replication.blockRightPop self ops key timeout
        = ((match self.clients.getLast? with
            | none => none
            | some c => (ops.blockRightPop c key timeout).1),
           ⟨self.clients.map fun c => (ops.blockRightPop c key timeout).2⟩)) := by
  refine ⟨fun σ K V ops self key timeout => ⟨rfl, rfl⟩, ?_, ?_⟩
  · intro σ K V _ ops self key timeout i c h
    constructor
    · simp only [Distribution.blockLeftPop, h]
    · simp only [Distribution.blockRightPop, h]
  · intro σ K V ops self key timeout
    constructor
    · simp only [Replication.blockLeftPop, replicationBlockPopList_eq]
    · simp only [Replication.blockRightPop, replicationBlockPopList_eq]

/-- Witness for the amended C6 at a concrete one-child Distribution whose
child `0` owns every key. -/
theorem blockpop_delegation_witness :
    Distribution.blockLeftPop distL lOps "q" 0
      = ((lOps.blockLeftPop [("q", [1])] "q" 0).1,
         { distL with
             client := dictSet 0 (lOps.blockLeftPop [("q", [1])] "q" 0).2 distL.client }) ∧
    Distribution.blockRightPop distL lOps "q" 0
      = ((lOps.blockRightPop [("q", [1])] "q" 0).1,
         { distL with
             client := dictSet 0 (lOps.blockRightPop [("q", [1])] "q" 0).2 distL.client }) :=
  blockpop_delegation.2.1 _ _ _ lOps distL "q" 0 0 [("q", [1])] (by decide)

/-- C1 (code bug): at the two-layer input where layer 0 misses and the
primary holds `("k", 5)`, `Multilayer.get` raises (the promotion loop
subscripts `self._client`, which is `None`, instead of `self._clients`)
rather than promoting the value into layer 0 and returning it; by contrast
a hit directly at layer 0 (second conjunct) returns the value, since its
promotion range is empty. -/
theorem multilayer_get_promotion_raises :
    Multilayer.get ⟨[⟨true, []⟩], ⟨true, [("k", 5)]⟩⟩ mOps "k"
      = (Except.error PyError.typeError, [⟨true, []⟩, ⟨true, [("k", 5)]⟩]) ∧
    Multilayer.get ⟨[⟨true, [("k", 5)]⟩], ⟨true, []⟩⟩ mOps "k"
      = (Except.ok (some 5), [⟨true, [("k", 5)]⟩, ⟨true, []⟩]) := ⟨rfl, rfl⟩

/-- C8 (code bug): with an empty layer 0 and a primary holding field
`"f" ↦ 7` under `"k"`, `Multilayer.hget` does promote the field into layer
0 via `hset` (first conjunct: both layers end up holding it), but — having
no `return` statement — it returns `None` instead of the found value `7`,
which the child lookup itself produces (second conjunct). -/
theorem multilayer_hget_returns_none :
    Multilayer.hget ⟨[[]], [("k", [("f", 7)])]⟩ hOps "k" "f"
      = (none, [[("k", [("f", 7)])], [("k", [("f", 7)])]]) ∧
    (hOps.hget [("k", [("f", 7)])] "k" "f").1 = some 7 := ⟨rfl, rfl⟩

/-- C7 (code bug): on the routed child's sorted set
`{a: 0, b: 5, c: 10}`, `Distribution.zremrangebyscore(key, 5, 10)` performs
a remove-by-RANK (ranks 5‥10 — nothing) and reports `0` removed with the
child unchanged, while the child's own remove-by-score operation removes
the 2 members with scores in `[5, 10]`. -/
theorem distribution_zremrangebyscore_uses_rank :
    (Distribution.zremrangebyscore distZ zOps "s" 5 10).1 = some 0 ∧
    dictGet (Distribution.zremrangebyscore distZ zOps "s" 5 10).2.client 0
      = some zChild ∧
    zOps.zremrangebyscore zChild "s" 5 10 = (2, [("s", [("a", 0)])]) :=
  ⟨rfl, rfl, rfl⟩

/-- C3: with `method=mod`, `key_regex=r"user:(\d+):.*"`, `factor=4` and
children `{0,1,2,3}`, the key `"user:17:profile"` extracts sub-key 17,
routes to child `17 % 4 = 1`, and `set` applies the write to child 1 only:
afterwards child 1's own `get` observes the value while children 0, 2 and 3
are unchanged (and an unchanged empty child's `get` observes nothing). -/
theorem distribution_mod_example_child1 (v : Int) :
    extractUserNum "user:17:profile" = some 17 ∧
    getClientIdByKeyModUser 4 "user:17:profile" = some 1 ∧
    (Distribution.set distUser4 mOps "user:17:profile" v none false).1 = true ∧
    dictGet (Distribution.set distUser4 mOps "user:17:profile" v none false).2.client 1
      = some ⟨true, [("user:17:profile", v)]⟩ ∧
    dictGet (Distribution.set distUser4 mOps "user:17:profile" v none false).2.client 0
      = some ⟨true, []⟩ ∧
    dictGet (Distribution.set distUser4 mOps "user:17:profile" v none false).2.client 2
      = some ⟨true, []⟩ ∧
    dictGet (Distribution.set distUser4 mOps "user:17:profile" v none false).2.client 3
      = some ⟨true, []⟩ ∧
    (mOps.get ⟨true, [("user:17:profile", v)]⟩ "user:17:profile").1 = some v ∧
    (mOps.get (⟨true, []⟩ : MChild) "user:17:profile").1 = none :=
  ⟨rfl, rfl, rfl, rfl, rfl, rfl, rfl, rfl, rfl⟩

theorem foldlM_option_none {α β : Type} (g : β → α → Option β) (l : List α)
    (a : α) (ha : a ∈ l) (hfail : ∀ b, g b a = none) :
    ∀ b0 : β, l.foldlM g b0 = none := by
  induction l with
  | nil => cases ha
  | cons x xs ih =>
    intro b0
    rcases List.mem_cons.mp ha with h | hmem
    · subst h
      simp [List.foldlM_cons, hfail b0]
    · cases hgx : g b0 x with
      | none => simp [List.foldlM_cons, hgx]
      | some b1 =>
        simp only [List.foldlM_cons, hgx, Option.bind_eq_bind, Option.some_bind]
        exact ih hmem b1

/-- C4: when `get_client_by_key` resolves no owning child for a key
(unmatched regex, non-numeric capture, or unknown bucket id — all three
make `getClientByKey` return `none`), single-key operations return their
designated failure value (`None`/`False`) with the composite unchanged and
no exception (every embedded operation is a total function), and the
multi-key operations fail as a whole in their routing phase — before any
child is contacted — whenever any requested key fails to route. -/
theorem distribution_noroute_returns_failure {σ K V : Type} [DecidableEq K]
    (self : Distribution K σ) (ops : ScalarOps σ K V) (key : K)
    (value : V) (timeout : Option Int) (noreply : Bool) (delta : Int)
    (kvs : List (K × V)) (ks : List K)
    (hkey : self.getClientByKey key = none)
    (hkvs : key ∈ kvs.map Prod.fst) (hks : key ∈ ks) :
    Distribution.get self ops key = (none, self) ∧
    Distribution.set self ops key value timeout noreply = (false, self) ∧
    Distribution.incr self ops key delta noreply = (none, self) ∧
    Distribution.setMany self ops kvs timeout noreply = (false, self) ∧
    Distribution.getValues self ops ks = (none, self) ∧
    Distribution.deleteMany self ops ks noreply = (false, self) := by
  have hset : distBuildSetTable self kvs = (none : Option (List (Nat × List (K × V)))) := by
    obtain ⟨kv, hkv, hfst⟩ := List.mem_map.mp hkvs
    exact foldlM_option_none _ kvs kv hkv
      (fun b => by
        show (match self.getClientByKey kv.1 with
          | none => none
          | some (i, _) => some (groupDictSet i kv.1 kv.2 b)) = none
        rw [hfst, hkey]) []
  have hkt : distBuildKeyTable self ks = (none : Option (List (Nat × List K))) := by
    exact foldlM_option_none _ ks key hks
      (fun b => by
        show (match self.getClientByKey key with
          | none => none
          | some (i, _) => some (groupAppend i key b)) = none
        rw [hkey]) []
  refine ⟨?_, ?_, ?_, ?_, ?_, ?_⟩
  · simp [Distribution.get, hkey]
  · simp [Distribution.set, hkey]
  · simp [Distribution.incr, hkey]
  · simp [Distribution.setMany, hset]
  · simp [Distribution.getValues, hkt]
  · simp [Distribution.deleteMany, hkt]

/-- Witness for C4 on the spec's `mod` configuration: the key `"bogus"`
does not match `user:(\d+):.*`, so every listed operation fails without
touching any child. -/
theorem distribution_noroute_witness :
    Distribution.get distUser4 mOps "bogus" = (none, distUser4) ∧
    Distribution.set distUser4 mOps "bogus" 1 none false = (false, distUser4) ∧
    Distribution.incr distUser4 mOps "bogus" 1 false = (none, distUser4) ∧
    Distribution.setMany distUser4 mOps [("user:1:a", 1), ("bogus", 2)] none false
      = (false, distUser4) ∧
    Distribution.getValues distUser4 mOps ["bogus", "user:2:a"] = (none, distUser4) ∧
    Distribution.deleteMany distUser4 mOps ["bogus", "user:2:a"] false
      = (false, distUser4) :=
  distribution_noroute_returns_failure distUser4 mOps "bogus" 1 none false 1
    [("user:1:a", 1), ("bogus", 2)] ["bogus", "user:2:a"]
    (by decide) (by decide) (by decide)

/-- C9: for the in-memory backend, `set` with `timeout` unspecified stores
the value with the default expiration instant `now + self.timeout` (a later
`get` sees it exactly until that instant passes); `timeout = 0` stores it
so it never expires (a `get` returns the value at every later time); a
positive `timeout = t` makes it expire `t` seconds from now (`get` strictly
after `now + t` returns `None`, up to `now + t` returns the value). -/
theorem memory_set_timeout_semantics {K V : Type} [DecidableEq K]
    (m : Memory K V) (key : K) (value : V) (now now2 : Int) :
    ((Memory.set m now key value none false).2.get now2 key).1
      = (if now + m.timeout < now2 then none else some value) ∧
    ((Memory.set m now key value (some 0) false).2.get now2 key).1 = some value ∧
    (∀ t : Int, 0 < t →
      ((Memory.set m now key value (some t) false).2.get now2 key).1
        = (if now + t < now2 then none else some value)) := by
  have htimeout : (m.trim now).timeout = m.timeout := by
    unfold Memory.trim; split <;> rfl
  refine ⟨?_, ?_, ?_⟩
  · simp only [Memory.set, Memory.get, Memory.normalizeTimeout, htimeout,
      dictGet_dictSet_self]
    by_cases h : now + m.timeout < now2 <;> simp [h]
  · simp [Memory.set, Memory.get, Memory.normalizeTimeout, dictGet_dictSet_self]
  · intro t ht
    have hne : ¬(t = 0) := by omega
    simp only [Memory.set, Memory.get, Memory.normalizeTimeout, hne,
      dictGet_dictSet_self, if_false]
    by_cases h : now + t < now2 <;> simp [h]

/-- Witness for C9: value stored at time 100 with `timeout = 3` is gone at
time 104. -/
theorem memory_set_timeout_witness :
    ((Memory.set mem0 100 "a" 1 (some 3) false).2.get 104 "a").1
      = (if (100 : Int) + 3 < 104 then none else some 1) :=
  (memory_set_timeout_semantics mem0 "a" 1 100 104).2.2 3 (by decide)

/-- C10: for any cache using the base `get_values` (over its possibly
overridden `get_key_to_value`), `get_values(k1, …, kn)` has length `n` and
its `i`-th element is `get_key_to_value(k1, …, kn).get(ki)` — values come
back in request order, `None` standing in for keys missing from the
key-to-value dict. -/
theorem cachebase_get_values_order {K V : Type} [DecidableEq K]
    (gktv : List K → List (K × Option V)) (keys : List K) :
    (CacheBase.getValues gktv keys).length = keys.length ∧
    ∀ i : Nat, (CacheBase.getValues gktv keys)[i]?
        = (keys[i]?).map fun k => (dictGet (gktv keys) k).getD none := by
  constructor
  · simp [CacheBase.getValues]
  · intro i
    simp [CacheBase.getValues, List.getElem?_map]
